import Mathlib

/-!
Shallow embedding of the solms-backend transaction-builder service
(`src/server.js`).  The file under verification registers the `/send`
handler at lines 191-309 (the copy the claims cite; an identical copy
appears later in the file) and the `/submit` handler at lines 312-336.

Modelling conventions:
* addresses are their textual form (`Addr := String`); `new PublicKey(s)`
  succeeding or throwing is the environment predicate `validKey`;
* JavaScript numeric amounts are modelled as exact rationals `ℚ`;
* every external-collaborator interaction (blockhash fetch, mint fetch,
  account-info fetch, broadcast, confirmation, signed-blob decode) is
  recorded in an event trace so that fail-fast / ordering claims are
  statable;
* the external ledger collaborator is a record of pure functions `Env`
  fixed for the duration of one request (on-chain state does not change
  while the handler runs).
-/

/-- Textual address, as held by a `PublicKey` object. -/
abbrev Addr := String

/-- One element of the `recipients` array of a `/send` body. -/
structure RecipientEntry where
  address : String
  amount : ℚ
  deriving DecidableEq, Repr

/-- Body of a `POST /send` request.  `none` models an absent (falsy) field. -/
structure SendRequest where
  publicKey : Option String
  token : String
  recipients : Option (List RecipientEntry)
  deriving DecidableEq, Repr

/-- The instructions the handler can add to the transaction:
`SystemProgram.transfer`, `createAssociatedTokenAccountInstruction`,
`createTransferInstruction`. -/
inductive Instruction where
  | nativeTransfer (fromPubkey toPubkey : Addr) (lamports : ℚ)
  | createATA (payer account owner mint : Addr)
  | tokenTransfer (source destination owner : Addr) (amount : ℚ)
  deriving DecidableEq, Repr

/-- A `Transaction` object as the handler populates it: instruction list,
`feePayer`, `recentBlockhash` (fields start unset, hence `Option`). -/
structure UnsignedTransaction where
  instructions : List Instruction
  feePayer : Option Addr
  recentBlockhash : Option String
  deriving DecidableEq, Repr

/-- Interactions with the external collaborators, in the order the handler
performs them.  `decodeAttempt` marks the `Transaction.from` call on the
submission path (a codec call, not a network call); the rest are network
round-trips through the `connection` handle. -/
inductive NetEvent where
  | fetchBlockhash
  | getMint (mint : Addr)
  | getAccountInfo (addr : Addr)
  | decodeAttempt
  | sendRawTransaction
  | confirmTransaction
  deriving DecidableEq, Repr

/-- The external ledger collaborator, fixed per request.
`validKey` is `new PublicKey` succeeding; `blockhash` is the
`getRecentBlockhash` result (`none` = the call rejects); `mintDecimals`
is `getMint` (`none` = the mint account is missing / malformed);
`deriveATA mint owner` is the pure `getAssociatedTokenAddress`
derivation; `accountExists` is `getAccountInfo` returning non-null;
`decodeTx` is `Transaction.from` on a base64 blob; `broadcast` is
`sendRawTransaction` (`none` = rejection); `confirmOk` is
`confirmTransaction` succeeding. -/
structure Env where
  validKey : String → Bool
  blockhash : Option String
  mintDecimals : Addr → Option Nat
  deriveATA : Addr → Addr → Addr
  accountExists : Addr → Bool
  decodeTx : String → Option UnsignedTransaction
  broadcast : Option String
  confirmOk : Bool

/-- `LAMPORTS_PER_SOL`, the fixed native scale. -/
def LAMPORTS_PER_SOL : ℚ := 1000000000

/-- Outcome of a `/send` request: HTTP 400, HTTP 500, or HTTP 200 carrying
the assembled transaction (serialized with `requireAllSignatures: false`). -/
inductive SendOutcome where
  | badRequest (msg : String)
  | serverError (msg : String)
  | ok (tx : UnsignedTransaction)
  deriving DecidableEq, Repr

/-- Outcome of a `/submit` request. -/
inductive SubmitOutcome where
  | badRequest (msg : String)
  | serverError (msg : String)
  | okSig (signature : String)
  deriving DecidableEq, Repr

/-- The instructions one loop iteration of the token branch adds for
recipient `r` (server.js lines 222-291): conditional recipient-account
creation, then conditional sender-account creation, then the transfer. -/
def tokenBlockIns (env : Env) (sender token : Addr) (decimals : Nat)
    (r : RecipientEntry) : List Instruction :=
  let recipATA := env.deriveATA token r.address
  let senderATA := env.deriveATA token sender
  (if env.accountExists recipATA then [] else
    [Instruction.createATA sender recipATA r.address token]) ++
  (if env.accountExists senderATA then [] else
    [Instruction.createATA sender senderATA sender token]) ++
  [Instruction.tokenTransfer senderATA recipATA sender
    (r.amount * (10 : ℚ) ^ decimals)]

/-- The network events one loop iteration of the token branch performs for
recipient `r`: `getMint`, then `getAccountInfo` on the recipient holding
account, then `getAccountInfo` on the sender holding account. -/
def tokenBlockEvs (env : Env) (sender token : Addr) (r : RecipientEntry) :
    List NetEvent :=
  [NetEvent.getMint token,
   NetEvent.getAccountInfo (env.deriveATA token r.address),
   NetEvent.getAccountInfo (env.deriveATA token sender)]

/-- The `for (const recipient of recipients)` loop of the `/send` handler
(server.js lines 210-292).  Returns the instructions added so far, the
network events performed, and `some msg` when an iteration threw (the
handler's `catch` then discards the instructions and answers 500). -/
def processRecipients (env : Env) (sender : Addr) (token : String) :
    List RecipientEntry → List Instruction × List NetEvent × Option String
  | [] => ([], [], none)
  | r :: rest =>
    if env.validKey r.address then
      if token == "SOL" then
        let ins := Instruction.nativeTransfer sender r.address
          (r.amount * LAMPORTS_PER_SOL)
        let tail := processRecipients env sender token rest
        (ins :: tail.1, tail.2.1, tail.2.2)
      else
        if env.validKey token then
          match env.mintDecimals token with
          | none => ([], [NetEvent.getMint token], some "getMint threw")
          | some decimals =>
            let tail := processRecipients env sender token rest
            (tokenBlockIns env sender token decimals r ++ tail.1,
             tokenBlockEvs env sender token r ++ tail.2.1,
             tail.2.2)
        else
          ([], [], some "Invalid public key")
    else
      ([], [], some "Invalid public key")

/-- The `/send` handler at server.js lines 191-309: field-presence check
(400), sender key parse, blockhash fetch, `feePayer` / `recentBlockhash`
assignment, the recipient loop, serialization; any throw is caught and
answered with a 500 `Failed to create transaction.`.  Returns the HTTP
outcome and the trace of collaborator events. -/
def handleSend (env : Env) (req : SendRequest) :
    SendOutcome × List NetEvent :=
  match req.publicKey, req.recipients with
  | none, _ => (SendOutcome.badRequest "Missing required fields", [])
  | some _, none => (SendOutcome.badRequest "Missing required fields", [])
  | some pk, some recips =>
    if recips.isEmpty then
      (SendOutcome.badRequest "Missing required fields", [])
    else if env.validKey pk then
      match env.blockhash with
      | none =>
        (SendOutcome.serverError "Failed to create transaction.",
         [NetEvent.fetchBlockhash])
      | some bh =>
        let res := processRecipients env pk req.token recips
        match res.2.2 with
        | some _ =>
          (SendOutcome.serverError "Failed to create transaction.",
           NetEvent.fetchBlockhash :: res.2.1)
        | none =>
          (SendOutcome.ok
            { instructions := res.1
              feePayer := some pk
              recentBlockhash := some bh },
           NetEvent.fetchBlockhash :: res.2.1)
    else
      (SendOutcome.serverError "Failed to create transaction.", [])

/-- Body of a `POST /submit` request. -/
structure SubmitRequest where
  signedTransaction : Option String
  deriving DecidableEq, Repr

/-- The `/submit` handler (server.js lines 312-336): missing-field check
(400), base64 decode via `Transaction.from` (throw caught as 500),
`sendRawTransaction`, `confirmTransaction`; collaborator failures are
caught and answered with a 500 `Failed to submit transaction.`. -/
def handleSubmit (env : Env) (req : SubmitRequest) :
    SubmitOutcome × List NetEvent :=
  match req.signedTransaction with
  | none => (SubmitOutcome.badRequest "Missing signedTransaction", [])
  | some blob =>
    match env.decodeTx blob with
    | none =>
      (SubmitOutcome.serverError "Failed to submit transaction.",
       [NetEvent.decodeAttempt])
    | some _ =>
      match env.broadcast with
      | none =>
        (SubmitOutcome.serverError "Failed to submit transaction.",
         [NetEvent.decodeAttempt, NetEvent.sendRawTransaction])
      | some sig =>
        if env.confirmOk then
          (SubmitOutcome.okSig sig,
           [NetEvent.decodeAttempt, NetEvent.sendRawTransaction,
            NetEvent.confirmTransaction])
        else
          (SubmitOutcome.serverError "Failed to submit transaction.",
           [NetEvent.decodeAttempt, NetEvent.sendRawTransaction,
            NetEvent.confirmTransaction])

/-! ### Helper lemmas about the recipient loop -/

/-- On the native branch (`token = "SOL"`), the loop emits exactly one
native-transfer instruction per recipient, in input order, with amount
`amount * LAMPORTS_PER_SOL`, performs no network call, and throws only on
an invalid recipient address. -/
theorem processRecipients_sol (env : Env) (pk : Addr)
    (rs : List RecipientEntry)
    (hval : ∀ r ∈ rs, env.validKey r.address = true) :
    processRecipients env pk "SOL" rs =
      (rs.map (fun r => Instruction.nativeTransfer pk r.address
        (r.amount * LAMPORTS_PER_SOL)), [], none) := by
  induction rs with
  | nil => rfl
  | cons r rest ih =>
    have hr : env.validKey r.address = true := hval r (List.mem_cons_self r rest)
    have hrest : ∀ x ∈ rest, env.validKey x.address = true :=
      fun x hx => hval x (List.mem_cons_of_mem r hx)
    simp [processRecipients, hr, ih hrest]

/-- On the token branch with a resolvable mint, the loop emits, per
recipient, the block `tokenBlockIns` and performs the events
`tokenBlockEvs` (in particular it re-resolves the sender holding account
on every iteration). -/
theorem processRecipients_token (env : Env) (pk : Addr) (tok : String)
    (d : Nat) (rs : List RecipientEntry)
    (htok : tok ≠ "SOL") (hktok : env.validKey tok = true)
    (hmint : env.mintDecimals tok = some d)
    (hval : ∀ r ∈ rs, env.validKey r.address = true) :
    processRecipients env pk tok rs =
      (rs.flatMap (tokenBlockIns env pk tok d),
       rs.flatMap (tokenBlockEvs env pk tok), none) := by
  induction rs with
  | nil => rfl
  | cons r rest ih =>
    have hr : env.validKey r.address = true := hval r (List.mem_cons_self r rest)
    have hrest : ∀ x ∈ rest, env.validKey x.address = true :=
      fun x hx => hval x (List.mem_cons_of_mem r hx)
    simp [processRecipients, hr, htok, hktok, hmint, ih hrest]

/-- If some recipient address is invalid, the loop throws. -/
theorem processRecipients_err_of_invalid (env : Env) (pk : Addr)
    (tok : String) (rs : List RecipientEntry)
    (h : ∃ r ∈ rs, env.validKey r.address = false) :
    (processRecipients env pk tok rs).2.2 ≠ none := by
  induction rs with
  | nil => simp at h
  | cons r rest ih =>
    by_cases hr : env.validKey r.address
    · have hrest : ∃ x ∈ rest, env.validKey x.address = false := by
        obtain ⟨x, hx, hxv⟩ := h
        rcases List.mem_cons.mp hx with hxx | hxm
        · rw [hxx] at hxv; rw [hr] at hxv; cases hxv
        · exact ⟨x, hxm, hxv⟩
      by_cases htok : tok = "SOL"
      · subst htok
        simpa [processRecipients, hr] using ih hrest
      · by_cases hktok : env.validKey tok
        · cases hmint : env.mintDecimals tok with
          | none => simp [processRecipients, hr, htok, hktok, hmint]
          | some d =>
            simpa [processRecipients, hr, htok, hktok, hmint] using ih hrest
        · simp [processRecipients, hr, htok,
            Bool.eq_false_iff.mpr hktok]
    · simp [processRecipients, Bool.eq_false_iff.mpr hr]

/-- The loop never fetches a blockhash. -/
theorem fetchBlockhash_not_in_loop (env : Env) (pk : Addr) (tok : String)
    (rs : List RecipientEntry) :
    NetEvent.fetchBlockhash ∉ (processRecipients env pk tok rs).2.1 := by
  induction rs with
  | nil => simp [processRecipients]
  | cons r rest ih =>
    by_cases hr : env.validKey r.address
    · by_cases htok : tok = "SOL"
      · subst htok
        simpa [processRecipients, hr] using ih
      · by_cases hktok : env.validKey tok
        · cases hmint : env.mintDecimals tok with
          | none => simp [processRecipients, hr, htok, hktok, hmint]
          | some d =>
            simp [processRecipients, hr, htok, hktok, hmint,
              tokenBlockEvs, ih]
        · simp [processRecipients, hr, htok, Bool.eq_false_iff.mpr hktok]
    · simp [processRecipients, Bool.eq_false_iff.mpr hr]

/-- Success shape of the `/send` handler. -/
theorem handleSend_ok (env : Env) (pk : Addr) (tok : String)
    (rs : List RecipientEntry) (bh : String) (ins : List Instruction)
    (evs : List NetEvent)
    (hpk : env.validKey pk = true) (hbh : env.blockhash = some bh)
    (hne : rs ≠ [])
    (hloop : processRecipients env pk tok rs = (ins, evs, none)) :
    handleSend env ⟨some pk, tok, some rs⟩ =
      (SendOutcome.ok { instructions := ins
                        feePayer := some pk
                        recentBlockhash := some bh },
       NetEvent.fetchBlockhash :: evs) := by
  simp [handleSend, hpk, hbh, hloop, hne]

/-- Inversion: a 200 response pins down the sender-key check, the
blockhash, the transaction fields and the event trace. -/
theorem handleSend_ok_inversion (env : Env) (pk : Addr) (tok : String)
    (rs : List RecipientEntry) (tx : UnsignedTransaction)
    (h : (handleSend env ⟨some pk, tok, some rs⟩).1 = SendOutcome.ok tx) :
    env.validKey pk = true ∧
    ∃ bh, env.blockhash = some bh ∧
      tx.feePayer = some pk ∧ tx.recentBlockhash = some bh ∧
      tx.instructions = (processRecipients env pk tok rs).1 ∧
      (handleSend env ⟨some pk, tok, some rs⟩).2 =
        NetEvent.fetchBlockhash :: (processRecipients env pk tok rs).2.1 := by
  by_cases hemp : rs.isEmpty
  · simp [handleSend, hemp] at h
  · by_cases hpk : env.validKey pk
    · cases hbh : env.blockhash with
      | none => simp [handleSend, hemp, hpk, hbh] at h
      | some bh =>
        cases herr : (processRecipients env pk tok rs).2.2 with
        | some m => simp [handleSend, hemp, hpk, hbh, herr] at h
        | none =>
          simp [handleSend, hemp, hpk, hbh, herr] at h
          exact ⟨hpk, bh, rfl, by rw [← h], by rw [← h], by rw [← h],
            by simp [handleSend, hemp, hpk, hbh, herr]⟩
    · simp [handleSend, hemp, Bool.eq_false_iff.mpr hpk] at h

/-! ### Concrete fixtures for witnesses and counterexamples -/

/-- A ledger environment for concrete runs: every key parses, the
blockhash fetch yields `"BH"`, every mint reports 6 decimals, holding
accounts are derived as `owner ++ "|" ++ mint`, and no holding account
exists yet on-chain. -/
def envAllMissing : Env :=
  { validKey := fun _ => true
    blockhash := some "BH"
    mintDecimals := fun _ => some 6
    deriveATA := fun mint owner => owner ++ "|" ++ mint
    accountExists := fun _ => false
    decodeTx := fun _ => none
    broadcast := some "SIG"
    confirmOk := true }

/-- Like `envAllMissing` but the strings `"BAD"` and `"NATIVE"` do not
parse as public keys (neither is a valid base-58 32-byte key). -/
def envKeyed : Env :=
  { envAllMissing with validKey := fun s => !(s == "BAD" || s == "NATIVE") }

/-- Like `envAllMissing` but every mint lookup fails (account not found
or not of mint shape). -/
def envNoMint : Env :=
  { envAllMissing with mintDecimals := fun _ => none }

/-- Like `envNoMint` but the blockhash fetch also fails. -/
def envNoBlockhashNoMint : Env :=
  { envNoMint with blockhash := none }

/-! ### C1 -/

/-- C1: for every valid native-currency build request (`token = "SOL"`,
addresses valid, amounts positive and representable at the native scale)
the handler succeeds and the transaction carries exactly one
native-transfer instruction per recipient, in input order, each with
lamports `amount * LAMPORTS_PER_SOL` — which, for representable amounts,
equals `round(amount * LAMPORTS_PER_SOL)` — and fee-payer the sender. -/
theorem sol_send_one_native_instruction_per_recipient (env : Env)
    (pk : String) (rs : List RecipientEntry) (bh : String)
    (hpk : env.validKey pk = true) (hbh : env.blockhash = some bh)
    (hne : rs ≠ [])
    (hval : ∀ r ∈ rs, env.validKey r.address = true)
    (hpos : ∀ r ∈ rs, 0 < r.amount)
    (hrep : ∀ r ∈ rs, (r.amount * LAMPORTS_PER_SOL).den = 1) :
    ∃ tx : UnsignedTransaction,
      handleSend env ⟨some pk, "SOL", some rs⟩ =
        (SendOutcome.ok tx, [NetEvent.fetchBlockhash]) ∧
      tx.instructions = rs.map (fun r => Instruction.nativeTransfer pk
        r.address (r.amount * LAMPORTS_PER_SOL)) ∧
      tx.instructions.length = rs.length ∧
      (∀ r ∈ rs, ((round (r.amount * LAMPORTS_PER_SOL) : ℤ) : ℚ) =
        r.amount * LAMPORTS_PER_SOL) ∧
      tx.feePayer = some pk := by
  refine ⟨_, handleSend_ok env pk "SOL" rs bh _ _ hpk hbh hne
    (processRecipients_sol env pk rs hval), rfl, by simp, ?_, rfl⟩
  intro r hr
  have h2 : (((r.amount * LAMPORTS_PER_SOL).num : ℤ) : ℚ) =
      r.amount * LAMPORTS_PER_SOL :=
    (Rat.den_eq_one_iff _).mp (hrep r hr)
  rw [← h2, round_intCast]

/-- Witness for C1 at the spec's own scenario: sender `"S"`, recipients
`[("A", 1.5), ("B", 2)]`, yielding lamport amounts `1500000000` and
`2000000000`. -/
theorem sol_send_one_native_instruction_per_recipient_witness :
    ∃ tx : UnsignedTransaction,
      handleSend envAllMissing
          ⟨some "S", "SOL", some [⟨"A", 3/2⟩, ⟨"B", 2⟩]⟩ =
        (SendOutcome.ok tx, [NetEvent.fetchBlockhash]) ∧
      tx.instructions = [Instruction.nativeTransfer "S" "A" 1500000000,
        Instruction.nativeTransfer "S" "B" 2000000000] ∧
      tx.feePayer = some "S" := by
  obtain ⟨tx, h1, h2, h3, h4, h5⟩ :=
    sol_send_one_native_instruction_per_recipient envAllMissing "S"
      [⟨"A", 3/2⟩, ⟨"B", 2⟩] "BH" rfl rfl (by simp)
      (fun r _ => rfl)
      (by intro r hr; simp at hr; rcases hr with rfl | rfl <;> norm_num)
      (by intro r hr; simp at hr; rcases hr with rfl | rfl <;>
        norm_num [LAMPORTS_PER_SOL])
  refine ⟨tx, h1, ?_, h5⟩
  rw [h2]
  norm_num [LAMPORTS_PER_SOL]

/-! ### C2 -/

/-- Length of one token-branch instruction block. -/
theorem tokenBlockIns_length (env : Env) (pk tok : Addr) (d : Nat)
    (r : RecipientEntry) :
    (tokenBlockIns env pk tok d r).length =
      1 + (if env.accountExists (env.deriveATA tok r.address) then 0 else 1)
        + (if env.accountExists (env.deriveATA tok pk) then 0 else 1) := by
  by_cases h1 : env.accountExists (env.deriveATA tok r.address) <;>
    by_cases h2 : env.accountExists (env.deriveATA tok pk) <;>
      simp [tokenBlockIns, h1, h2]

/-- Total token-branch instruction count: one transfer per recipient, one
creation per missing recipient account occurrence, and — because the
sender's account is re-checked on every iteration — one sender-creation
per recipient when the sender's account is missing. -/
theorem flatMap_tokenBlockIns_length (env : Env) (pk tok : Addr) (d : Nat)
    (rs : List RecipientEntry) :
    (rs.flatMap (tokenBlockIns env pk tok d)).length =
      rs.length
        + (rs.filter (fun r =>
            !env.accountExists (env.deriveATA tok r.address))).length
        + (if env.accountExists (env.deriveATA tok pk) then 0
           else rs.length) := by
  induction rs with
  | nil => simp
  | cons r rest ih =>
    by_cases h1 : env.accountExists (env.deriveATA tok r.address) <;>
      by_cases h2 : env.accountExists (env.deriveATA tok pk) <;>
        simp [List.flatMap_cons, List.filter_cons, tokenBlockIns_length,
          ih, h1, h2] <;> omega

/-- The sender's holding account is existence-checked at least once per
recipient (once per iteration). -/
theorem senderATA_checked_per_recipient (env : Env) (pk tok : Addr)
    (rs : List RecipientEntry) :
    rs.length ≤ (rs.flatMap (tokenBlockEvs env pk tok)).count
      (NetEvent.getAccountInfo (env.deriveATA tok pk)) := by
  induction rs with
  | nil => simp
  | cons r rest ih =>
    have h1 : 0 < (tokenBlockEvs env pk tok r).count
        (NetEvent.getAccountInfo (env.deriveATA tok pk)) :=
      List.count_pos_iff.mpr (by simp [tokenBlockEvs])
    rw [List.flatMap_cons, List.count_append]
    simp only [List.length_cons]
    omega

/-- The transaction the handler actually builds for sender `"S"`, token
`"T"`, recipients `[("A", 1), ("B", 1)]` against `envAllMissing`: six
instructions, with the sender's account-creation instruction duplicated. -/
def txDupSenderCreate : UnsignedTransaction :=
  { instructions :=
      [Instruction.createATA "S" "A|T" "A" "T",
       Instruction.createATA "S" "S|T" "S" "T",
       Instruction.tokenTransfer "S|T" "A|T" "S" 1000000,
       Instruction.createATA "S" "B|T" "B" "T",
       Instruction.createATA "S" "S|T" "S" "T",
       Instruction.tokenTransfer "S|T" "B|T" "S" 1000000]
    feePayer := some "S"
    recentBlockhash := some "BH" }

/-- C2 counterexample: for sender `"S"`, token `"T"`, two recipients, all
holding accounts missing, the build succeeds with 6 instructions — not
the `1 + 2 + 2 = 5` the claim's formula gives — the sender's pair is
existence-checked twice (not once), and the sender-creation instruction
appears twice. -/
theorem token_send_once_per_pair_counterexample :
    handleSend envAllMissing ⟨some "S", "T", some [⟨"A", 1⟩, ⟨"B", 1⟩]⟩ =
      (SendOutcome.ok txDupSenderCreate,
       [NetEvent.fetchBlockhash,
        NetEvent.getMint "T", NetEvent.getAccountInfo "A|T",
        NetEvent.getAccountInfo "S|T",
        NetEvent.getMint "T", NetEvent.getAccountInfo "B|T",
        NetEvent.getAccountInfo "S|T"]) ∧
    txDupSenderCreate.instructions.length = 6 ∧
    ¬ txDupSenderCreate.instructions.length = 1 + 2 + 2 ∧
    (handleSend envAllMissing
        ⟨some "S", "T", some [⟨"A", 1⟩, ⟨"B", 1⟩]⟩).2.count
      (NetEvent.getAccountInfo "S|T") = 2 ∧
    txDupSenderCreate.instructions.count
      (Instruction.createATA "S" "S|T" "S" "T") = 2 := by
  have h : handleSend envAllMissing
      ⟨some "S", "T", some [⟨"A", 1⟩, ⟨"B", 1⟩]⟩ =
      (SendOutcome.ok txDupSenderCreate,
       [NetEvent.fetchBlockhash,
        NetEvent.getMint "T", NetEvent.getAccountInfo "A|T",
        NetEvent.getAccountInfo "S|T",
        NetEvent.getMint "T", NetEvent.getAccountInfo "B|T",
        NetEvent.getAccountInfo "S|T"]) := by
    simp [handleSend, processRecipients, tokenBlockIns, tokenBlockEvs,
      envAllMissing, txDupSenderCreate]
    norm_num
  refine ⟨h, rfl, by decide, ?_, by decide⟩
  rw [h]
  decide

/-- C2 (amended): for every valid token build request the handler
re-resolves the sender's (owner, asset) pair once per recipient iteration
(so the sender's holding account is existence-checked at least once per
recipient, not once per distinct pair); the instruction list is the
concatenation of per-recipient blocks `tokenBlockIns` (recipient-creation
if missing, then sender-creation if missing, then the transfer), and the
instruction count is `recipients + missing-recipient-occurrences +
(recipients if the sender's account is missing, else 0)`. -/
theorem token_send_per_recipient_resolution (env : Env) (pk : Addr)
    (tok : String) (d : Nat) (rs : List RecipientEntry) (bh : String)
    (htok : tok ≠ "SOL") (hktok : env.validKey tok = true)
    (hmint : env.mintDecimals tok = some d)
    (hpk : env.validKey pk = true) (hbh : env.blockhash = some bh)
    (hne : rs ≠ [])
    (hval : ∀ r ∈ rs, env.validKey r.address = true) :
    ∃ tx : UnsignedTransaction,
      handleSend env ⟨some pk, tok, some rs⟩ =
        (SendOutcome.ok tx,
         NetEvent.fetchBlockhash :: rs.flatMap (tokenBlockEvs env pk tok)) ∧
      tx.instructions = rs.flatMap (tokenBlockIns env pk tok d) ∧
      tx.instructions.length = rs.length
        + (rs.filter (fun r =>
            !env.accountExists (env.deriveATA tok r.address))).length
        + (if env.accountExists (env.deriveATA tok pk) then 0
           else rs.length) ∧
      rs.length ≤ (rs.flatMap (tokenBlockEvs env pk tok)).count
        (NetEvent.getAccountInfo (env.deriveATA tok pk)) := by
  refine ⟨_, handleSend_ok env pk tok rs bh _ _ hpk hbh hne
    (processRecipients_token env pk tok d rs htok hktok hmint hval),
    rfl, ?_, senderATA_checked_per_recipient env pk tok rs⟩
  exact flatMap_tokenBlockIns_length env pk tok d rs

/-- Witness for the amended C2 at sender `"S"`, token `"T"`, recipients
`[("A", 1), ("B", 1)]`, all holding accounts missing. -/
theorem token_send_per_recipient_resolution_witness :
    ∃ tx : UnsignedTransaction,
      handleSend envAllMissing ⟨some "S", "T", some [⟨"A", 1⟩, ⟨"B", 1⟩]⟩ =
        (SendOutcome.ok tx,
         NetEvent.fetchBlockhash ::
           ([⟨"A", (1:ℚ)⟩, ⟨"B", (1:ℚ)⟩] : List RecipientEntry).flatMap
             (tokenBlockEvs envAllMissing "S" "T")) ∧
      tx.instructions =
        ([⟨"A", (1:ℚ)⟩, ⟨"B", (1:ℚ)⟩] : List RecipientEntry).flatMap
          (tokenBlockIns envAllMissing "S" "T" 6) ∧
      tx.instructions.length =
        ([⟨"A", (1:ℚ)⟩, ⟨"B", (1:ℚ)⟩] : List RecipientEntry).length
        + (([⟨"A", (1:ℚ)⟩, ⟨"B", (1:ℚ)⟩] : List RecipientEntry).filter
            (fun r => !envAllMissing.accountExists
              (envAllMissing.deriveATA "T" r.address))).length
        + (if envAllMissing.accountExists (envAllMissing.deriveATA "T" "S")
           then 0
           else ([⟨"A", (1:ℚ)⟩, ⟨"B", (1:ℚ)⟩] :
             List RecipientEntry).length) ∧
      ([⟨"A", (1:ℚ)⟩, ⟨"B", (1:ℚ)⟩] : List RecipientEntry).length ≤
        (([⟨"A", (1:ℚ)⟩, ⟨"B", (1:ℚ)⟩] : List RecipientEntry).flatMap
          (tokenBlockEvs envAllMissing "S" "T")).count
          (NetEvent.getAccountInfo (envAllMissing.deriveATA "T" "S")) :=
  token_send_per_recipient_resolution envAllMissing "S" "T" 6
    [⟨"A", 1⟩, ⟨"B", 1⟩] "BH" (by decide) rfl rfl rfl rfl (by simp)
    (fun r _ => rfl)

/-! ### C3 -/

/-- C3 counterexample: with a valid sender and an invalid second
recipient address `"BAD"`, the handler answers the generic 500
`Failed to create transaction.` (not a 400 `InvalidInput`), and its
event trace already contains the blockhash network call, performed
before the invalid address was detected. -/
theorem invalid_recipient_not_failfast_counterexample :
    handleSend envKeyed ⟨some "S", "SOL", some [⟨"A", 1⟩, ⟨"BAD", 1⟩]⟩ =
      (SendOutcome.serverError "Failed to create transaction.",
       [NetEvent.fetchBlockhash]) ∧
    envKeyed.validKey "BAD" = false ∧
    (handleSend envKeyed
      ⟨some "S", "SOL", some [⟨"A", 1⟩, ⟨"BAD", 1⟩]⟩).2 ≠ [] ∧
    (handleSend envKeyed
        ⟨some "S", "SOL", some [⟨"A", 1⟩, ⟨"BAD", 1⟩]⟩).1 ≠
      SendOutcome.badRequest "Missing required fields" := by
  refine ⟨?_, rfl, ?_, ?_⟩ <;>
    simp [handleSend, processRecipients, envKeyed, envAllMissing]

/-- C3 (amended): a request whose sender address or some recipient
address fails validation never yields a transaction: the handler answers
the generic 500 `Failed to create transaction.` (not a 400
`InvalidInput`).  An invalid sender is detected before any network call
(empty trace), but with a valid sender the blockhash network call is
performed before any recipient address is examined. -/
theorem invalid_address_rejected_as_500 (env : Env) (pk tok : String)
    (rs : List RecipientEntry) (hne : rs ≠ [])
    (hbad : env.validKey pk = false ∨
      ∃ r ∈ rs, env.validKey r.address = false) :
    (handleSend env ⟨some pk, tok, some rs⟩).1 =
      SendOutcome.serverError "Failed to create transaction." ∧
    (env.validKey pk = false →
      (handleSend env ⟨some pk, tok, some rs⟩).2 = []) ∧
    (env.validKey pk = true →
      ∃ evs, (handleSend env ⟨some pk, tok, some rs⟩).2 =
        NetEvent.fetchBlockhash :: evs) := by
  by_cases hpk : env.validKey pk
  · rcases hbad with hb | hb
    · rw [hpk] at hb; cases hb
    · cases hbh : env.blockhash with
      | none =>
        refine ⟨?_, ?_, ?_⟩ <;> simp [handleSend, hne, hpk, hbh]
      | some bh =>
        have herr := processRecipients_err_of_invalid env pk tok rs hb
        cases herr2 : (processRecipients env pk tok rs).2.2 with
        | none => exact absurd herr2 herr
        | some m =>
          refine ⟨?_, ?_, ?_⟩ <;> simp [handleSend, hne, hpk, hbh, herr2]
  · refine ⟨?_, ?_, ?_⟩ <;>
      simp [handleSend, hne, Bool.eq_false_iff.mpr hpk]

/-- Witness for the amended C3: valid sender `"S"`, invalid second
recipient `"BAD"`. -/
theorem invalid_address_rejected_as_500_witness :
    (handleSend envKeyed ⟨some "S", "SOL", some [⟨"A", 1⟩, ⟨"BAD", 1⟩]⟩).1 =
      SendOutcome.serverError "Failed to create transaction." ∧
    (envKeyed.validKey "S" = false →
      (handleSend envKeyed
        ⟨some "S", "SOL", some [⟨"A", 1⟩, ⟨"BAD", 1⟩]⟩).2 = []) ∧
    (envKeyed.validKey "S" = true →
      ∃ evs, (handleSend envKeyed
        ⟨some "S", "SOL", some [⟨"A", 1⟩, ⟨"BAD", 1⟩]⟩).2 =
          NetEvent.fetchBlockhash :: evs) :=
  invalid_address_rejected_as_500 envKeyed "S" "SOL"
    [⟨"A", 1⟩, ⟨"BAD", 1⟩] (by simp)
    (Or.inr ⟨⟨"BAD", 1⟩, by simp, by decide⟩)

/-! ### C4 -/

/-- Like `envAllMissing` but the sender's holding account `"S|T"` already
exists on-chain. -/
def envSenderHas : Env :=
  { envAllMissing with accountExists := fun a => a == "S|T" }

/-- The transaction built for sender `"S"`, token `"T"`, recipient
`("A", 5)` with 6 decimals when only the sender's holding account
exists: create `A`'s account, then transfer `5000000` units. -/
def txTokenScenario : UnsignedTransaction :=
  { instructions :=
      [Instruction.createATA "S" "A|T" "A" "T",
       Instruction.tokenTransfer "S|T" "A|T" "S" 5000000]
    feePayer := some "S"
    recentBlockhash := some "BH" }

/-- C4 counterexample: on a successful token build the blockhash fetch is
the FIRST collaborator event, and account-existence resolutions happen
after it — the fetch is not the last step before serialization as the
claim states. -/
theorem anchor_fetch_order_counterexample :
    handleSend envSenderHas ⟨some "S", "T", some [⟨"A", 5⟩]⟩ =
      (SendOutcome.ok txTokenScenario,
       [NetEvent.fetchBlockhash, NetEvent.getMint "T",
        NetEvent.getAccountInfo "A|T", NetEvent.getAccountInfo "S|T"]) ∧
    (handleSend envSenderHas ⟨some "S", "T", some [⟨"A", 5⟩]⟩).2.head? =
      some NetEvent.fetchBlockhash ∧
    (handleSend envSenderHas ⟨some "S", "T", some [⟨"A", 5⟩]⟩).2.getLast? ≠
      some NetEvent.fetchBlockhash := by
  have h : handleSend envSenderHas ⟨some "S", "T", some [⟨"A", 5⟩]⟩ =
      (SendOutcome.ok txTokenScenario,
       [NetEvent.fetchBlockhash, NetEvent.getMint "T",
        NetEvent.getAccountInfo "A|T", NetEvent.getAccountInfo "S|T"]) := by
    simp [handleSend, processRecipients, tokenBlockIns, tokenBlockEvs,
      envSenderHas, envAllMissing, txTokenScenario]
    norm_num
  refine ⟨h, by rw [h]; rfl, by rw [h]; decide⟩

/-- C4 (amended): every successful build carries exactly one fee-payer
(the sender) and exactly one anchor, but the anchor is fetched FIRST —
it is the first collaborator event of the request and the only blockhash
fetch — before any instruction-affecting resolution, not after them. -/
theorem anchor_unique_but_fetched_first (env : Env) (pk tok : String)
    (rs : List RecipientEntry) (tx : UnsignedTransaction)
    (hok : (handleSend env ⟨some pk, tok, some rs⟩).1 = SendOutcome.ok tx) :
    tx.feePayer = some pk ∧
    (∃ bh, env.blockhash = some bh ∧ tx.recentBlockhash = some bh) ∧
    (handleSend env ⟨some pk, tok, some rs⟩).2.head? =
      some NetEvent.fetchBlockhash ∧
    (handleSend env ⟨some pk, tok, some rs⟩).2.count
      NetEvent.fetchBlockhash = 1 := by
  obtain ⟨hpk, bh, hbh, hfp, hrb, hins, htr⟩ :=
    handleSend_ok_inversion env pk tok rs tx hok
  refine ⟨hfp, ⟨bh, hbh, hrb⟩, by rw [htr]; rfl, ?_⟩
  have hnm := fetchBlockhash_not_in_loop env pk tok rs
  rw [htr]
  simp [List.count_cons, List.count_eq_zero.mpr hnm]

/-- Witness for the amended C4 at the concrete token build above. -/
theorem anchor_unique_but_fetched_first_witness :
    txTokenScenario.feePayer = some "S" ∧
    (∃ bh, envSenderHas.blockhash = some bh ∧
      txTokenScenario.recentBlockhash = some bh) ∧
    (handleSend envSenderHas ⟨some "S", "T", some [⟨"A", 5⟩]⟩).2.head? =
      some NetEvent.fetchBlockhash ∧
    (handleSend envSenderHas ⟨some "S", "T", some [⟨"A", 5⟩]⟩).2.count
      NetEvent.fetchBlockhash = 1 :=
  anchor_unique_but_fetched_first envSenderHas "S" "T" [⟨"A", 5⟩]
    txTokenScenario
    (by simp [handleSend, processRecipients, tokenBlockIns, tokenBlockEvs,
      envSenderHas, envAllMissing, txTokenScenario]; norm_num)

/-! ### C5 -/

/-- The transaction the handler builds for a zero-amount native transfer. -/
def txZeroAmount : UnsignedTransaction :=
  { instructions := [Instruction.nativeTransfer "S" "A" 0]
    feePayer := some "S"
    recentBlockhash := some "BH" }

/-- C5 counterexample: a request whose only transfer has amount `0` (not
strictly positive) is not rejected — the build succeeds and emits a
native-transfer instruction with `0` lamports. -/
theorem nonpositive_amount_accepted_counterexample :
    handleSend envAllMissing ⟨some "S", "SOL", some [⟨"A", 0⟩]⟩ =
      (SendOutcome.ok txZeroAmount, [NetEvent.fetchBlockhash]) ∧
    ¬ (0 : ℚ) < 0 := by
  constructor
  · simp [handleSend, processRecipients, envAllMissing, txZeroAmount]
  · norm_num

/-- C5 (amended): the handler performs no amount-positivity validation:
a native request containing a transfer with `amount ≤ 0` still succeeds,
and the emitted instruction carries the non-positive lamport amount
`amount * LAMPORTS_PER_SOL ≤ 0`. -/
theorem no_amount_positivity_validation (env : Env) (pk : String)
    (rs : List RecipientEntry) (bh : String)
    (hpk : env.validKey pk = true) (hbh : env.blockhash = some bh)
    (hne : rs ≠ [])
    (hval : ∀ r ∈ rs, env.validKey r.address = true)
    (r : RecipientEntry) (hr : r ∈ rs) (hnp : r.amount ≤ 0) :
    ∃ tx : UnsignedTransaction,
      (handleSend env ⟨some pk, "SOL", some rs⟩).1 = SendOutcome.ok tx ∧
      Instruction.nativeTransfer pk r.address (r.amount * LAMPORTS_PER_SOL)
        ∈ tx.instructions ∧
      r.amount * LAMPORTS_PER_SOL ≤ 0 := by
  have h := handleSend_ok env pk "SOL" rs bh _ _ hpk hbh hne
    (processRecipients_sol env pk rs hval)
  exact ⟨_, by rw [h],
    List.mem_map_of_mem _ hr,
    mul_nonpos_of_nonpos_of_nonneg hnp (by norm_num [LAMPORTS_PER_SOL])⟩

/-- Witness for the amended C5 at amount `0`. -/
theorem no_amount_positivity_validation_witness :
    ∃ tx : UnsignedTransaction,
      (handleSend envAllMissing ⟨some "S", "SOL", some [⟨"A", 0⟩]⟩).1 =
        SendOutcome.ok tx ∧
      Instruction.nativeTransfer "S" "A" ((0 : ℚ) * LAMPORTS_PER_SOL)
        ∈ tx.instructions ∧
      (0 : ℚ) * LAMPORTS_PER_SOL ≤ 0 :=
  no_amount_positivity_validation envAllMissing "S" [⟨"A", 0⟩] "BH"
    rfl rfl (by simp) (fun r _ => rfl) ⟨"A", 0⟩ (by simp) (by norm_num)

/-! ### C6 -/

/-- C6 counterexample: a request with `token = "NATIVE"` is NOT routed to
the native primitive — the handler treats `"NATIVE"` as a token mint
address, fails to parse it, and answers 500 — while `token = "SOL"` (the
actual sentinel) produces the native transfer. -/
theorem native_sentinel_counterexample :
    handleSend envKeyed ⟨some "S", "NATIVE", some [⟨"A", 1⟩]⟩ =
      (SendOutcome.serverError "Failed to create transaction.",
       [NetEvent.fetchBlockhash]) ∧
    handleSend envKeyed ⟨some "S", "SOL", some [⟨"A", 1⟩]⟩ =
      (SendOutcome.ok
        { instructions := [Instruction.nativeTransfer "S" "A" 1000000000]
          feePayer := some "S"
          recentBlockhash := some "BH" },
       [NetEvent.fetchBlockhash]) := by
  constructor
  · simp [handleSend, processRecipients, envKeyed, envAllMissing]
  · simp [handleSend, processRecipients, envKeyed, envAllMissing]
    norm_num [LAMPORTS_PER_SOL]

/-- C6 (amended): the native-currency sentinel is the string `"SOL"`,
not `"NATIVE"`: `token = "SOL"` selects the native transfer primitive
with the fixed scale `LAMPORTS_PER_SOL` and performs no asset lookup
(the only collaborator event is the blockhash fetch), while every other
token value is treated as a token-type address and used for a mint
lookup. -/
theorem native_branch_selected_by_SOL (env : Env) (pk : String)
    (rs : List RecipientEntry) (bh : String) (tok : String) (d : Nat)
    (hpk : env.validKey pk = true) (hbh : env.blockhash = some bh)
    (hne : rs ≠ [])
    (hval : ∀ r ∈ rs, env.validKey r.address = true)
    (htok : tok ≠ "SOL") (hktok : env.validKey tok = true)
    (hmint : env.mintDecimals tok = some d) :
    handleSend env ⟨some pk, "SOL", some rs⟩ =
      (SendOutcome.ok
        { instructions := rs.map (fun r => Instruction.nativeTransfer pk
            r.address (r.amount * LAMPORTS_PER_SOL))
          feePayer := some pk
          recentBlockhash := some bh },
       [NetEvent.fetchBlockhash]) ∧
    NetEvent.getMint tok ∈ (handleSend env ⟨some pk, tok, some rs⟩).2 := by
  constructor
  · exact handleSend_ok env pk "SOL" rs bh _ _ hpk hbh hne
      (processRecipients_sol env pk rs hval)
  · rw [handleSend_ok env pk tok rs bh _ _ hpk hbh hne
      (processRecipients_token env pk tok d rs htok hktok hmint hval)]
    obtain ⟨r, rest, rfl⟩ := List.exists_cons_of_ne_nil hne
    simp [tokenBlockEvs]

/-- Witness for the amended C6: same environment and recipients, sentinel
`"SOL"` versus the mint address `"T"`. -/
theorem native_branch_selected_by_SOL_witness :
    handleSend envKeyed ⟨some "S", "SOL", some [⟨"A", 1⟩]⟩ =
      (SendOutcome.ok
        { instructions := ([⟨"A", (1:ℚ)⟩] : List RecipientEntry).map
            (fun r => Instruction.nativeTransfer "S" r.address
              (r.amount * LAMPORTS_PER_SOL))
          feePayer := some "S"
          recentBlockhash := some "BH" },
       [NetEvent.fetchBlockhash]) ∧
    NetEvent.getMint "T" ∈
      (handleSend envKeyed ⟨some "S", "T", some [⟨"A", 1⟩]⟩).2 :=
  native_branch_selected_by_SOL envKeyed "S" [⟨"A", 1⟩] "BH" "T" 6
    rfl rfl (by simp) (by intro r hr; simp at hr; subst hr; decide)
    (by decide) (by decide) rfl

/-! ### C7 -/

/-- C7 counterexample: when the mint lookup for `"T"` fails, the handler
answers the generic 500 `Failed to create transaction.` — the very same
outcome value it produces when the blockhash network call fails — so the
asset-lookup failure is defaulted to a generic failure, not surfaced as
a distinct `AssetNotFound` kind. -/
theorem asset_error_not_distinct_counterexample :
    handleSend envNoMint ⟨some "S", "T", some [⟨"A", 1⟩]⟩ =
      (SendOutcome.serverError "Failed to create transaction.",
       [NetEvent.fetchBlockhash, NetEvent.getMint "T"]) ∧
    (handleSend envNoMint ⟨some "S", "T", some [⟨"A", 1⟩]⟩).1 =
      (handleSend envNoBlockhashNoMint
        ⟨some "S", "T", some [⟨"A", 1⟩]⟩).1 := by
  constructor <;>
    simp [handleSend, processRecipients, envNoMint, envNoBlockhashNoMint,
      envAllMissing]

/-- C7 (amended): a failing asset-type lookup aborts the build before any
account-existence check (after the blockhash fetch the only collaborator
event is the mint fetch, and no `getAccountInfo` occurs), but it is
surfaced as the generic 500 `Failed to create transaction.`, not as a
distinct `AssetNotFound` error kind. -/
theorem asset_lookup_failure_is_generic_500 (env : Env)
    (pk tok bh : String) (r : RecipientEntry) (rest : List RecipientEntry)
    (hpk : env.validKey pk = true) (hbh : env.blockhash = some bh)
    (htok : tok ≠ "SOL") (hktok : env.validKey tok = true)
    (hmint : env.mintDecimals tok = none)
    (hvr : env.validKey r.address = true) :
    handleSend env ⟨some pk, tok, some (r :: rest)⟩ =
      (SendOutcome.serverError "Failed to create transaction.",
       [NetEvent.fetchBlockhash, NetEvent.getMint tok]) ∧
    ∀ a, NetEvent.getAccountInfo a ∉
      (handleSend env ⟨some pk, tok, some (r :: rest)⟩).2 := by
  have hloop : processRecipients env pk tok (r :: rest) =
      ([], [NetEvent.getMint tok], some "getMint threw") := by
    simp [processRecipients, hvr, htok, hktok, hmint]
  constructor
  · simp [handleSend, hpk, hbh, hloop]
  · intro a
    simp [handleSend, hpk, hbh, hloop]

/-- Witness for the amended C7 at mint `"T"` with every lookup failing. -/
theorem asset_lookup_failure_is_generic_500_witness :
    handleSend envNoMint ⟨some "S", "T", some [⟨"A", 1⟩]⟩ =
      (SendOutcome.serverError "Failed to create transaction.",
       [NetEvent.fetchBlockhash, NetEvent.getMint "T"]) ∧
    ∀ a, NetEvent.getAccountInfo a ∉
      (handleSend envNoMint ⟨some "S", "T", some [⟨"A", 1⟩]⟩).2 :=
  asset_lookup_failure_is_generic_500 envNoMint "S" "T" "BH" ⟨"A", 1⟩ []
    rfl rfl (by decide) rfl rfl rfl

/-! ### C8 -/

/-- C8: a `/send` request with an empty recipient list is rejected with
the 400 `Missing required fields` response and an empty collaborator
trace — no blockhash fetch, no account lookup, no network call at all. -/
theorem empty_recipients_rejected_no_network (env : Env)
    (pk tok : String) :
    handleSend env ⟨some pk, tok, some []⟩ =
      (SendOutcome.badRequest "Missing required fields", []) := rfl

/-! ### C9 — Transaction Codec -/

/-- Modelled from the spec: wire tokens of the Transaction Codec (§4.5).
The codec itself is implemented by the external `@solana/web3.js`
serializer — `transaction.serialize({ requireAllSignatures: false })` and
`Transaction.from` — whose code is not under `src/`; following §4.5 it is
modelled as a stable transport encoding of the fields the builder sets
(fee-payer, anchor, ordered instruction list), tolerant of the absence of
signatures, whose decoder rejects malformed input with `none`. -/
inductive WireTok where
  | nat (n : Nat)
  | int (i : Int)
  | str (s : String)
  deriving DecidableEq, Repr

/-- Modelled from the spec: encoding of an integer-scaled amount. -/
def encodeRat (q : ℚ) : List WireTok :=
  [WireTok.int q.num, WireTok.nat q.den]

/-- Modelled from the spec: decoder for `encodeRat`. -/
def decodeRat : List WireTok → Option (ℚ × List WireTok)
  | WireTok.int n :: WireTok.nat d :: rest => some ((n : ℚ) / (d : ℚ), rest)
  | _ => none

/-- Modelled from the spec: encoding of one instruction, tagged by its
primitive. -/
def encodeInstr : Instruction → List WireTok
  | Instruction.nativeTransfer f t q =>
    WireTok.nat 0 :: WireTok.str f :: WireTok.str t :: encodeRat q
  | Instruction.createATA p a o m =>
    [WireTok.nat 1, WireTok.str p, WireTok.str a, WireTok.str o,
     WireTok.str m]
  | Instruction.tokenTransfer s d o q =>
    WireTok.nat 2 :: WireTok.str s :: WireTok.str d :: WireTok.str o ::
      encodeRat q

/-- Modelled from the spec: decoder for `encodeInstr`; rejects malformed
input with `none`. -/
def decodeInstr : List WireTok → Option (Instruction × List WireTok)
  | WireTok.nat 0 :: WireTok.str f :: WireTok.str t :: rest =>
    match decodeRat rest with
    | some (q, rest2) => some (Instruction.nativeTransfer f t q, rest2)
    | none => none
  | WireTok.nat 1 :: WireTok.str p :: WireTok.str a :: WireTok.str o ::
      WireTok.str m :: rest =>
    some (Instruction.createATA p a o m, rest)
  | WireTok.nat 2 :: WireTok.str s :: WireTok.str d :: WireTok.str o ::
      rest =>
    match decodeRat rest with
    | some (q, rest2) => some (Instruction.tokenTransfer s d o q, rest2)
    | none => none
  | _ => none

/-- Modelled from the spec: decoder for a counted instruction sequence. -/
def decodeInstrList :
    Nat → List WireTok → Option (List Instruction × List WireTok)
  | 0, rest => some ([], rest)
  | n + 1, rest =>
    match decodeInstr rest with
    | some (i, rest2) =>
      match decodeInstrList n rest2 with
      | some (is, rest3) => some (i :: is, rest3)
      | none => none
    | none => none

/-- Modelled from the spec: encoding of an optional field (the codec is
tolerant of unset fields / absent signatures). -/
def encodeOptStr : Option String → List WireTok
  | none => [WireTok.nat 0]
  | some s => [WireTok.nat 1, WireTok.str s]

/-- Modelled from the spec: decoder for `encodeOptStr`. -/
def decodeOptStr : List WireTok → Option (Option String × List WireTok)
  | WireTok.nat 0 :: rest => some (none, rest)
  | WireTok.nat 1 :: WireTok.str s :: rest => some (some s, rest)
  | _ => none

/-- Modelled from the spec: `encode(tx)` — fee-payer, anchor, then the
counted instruction sequence. -/
def txEncode (tx : UnsignedTransaction) : List WireTok :=
  encodeOptStr tx.feePayer ++ encodeOptStr tx.recentBlockhash ++
    WireTok.nat tx.instructions.length ::
      tx.instructions.flatMap encodeInstr

/-- Modelled from the spec: `decode(bytes)` — rejects trailing or
malformed input with `none`. -/
def txDecode (w : List WireTok) : Option UnsignedTransaction :=
  match decodeOptStr w with
  | none => none
  | some (fp, w1) =>
    match decodeOptStr w1 with
    | none => none
    | some (bh, w2) =>
      match w2 with
      | WireTok.nat n :: w3 =>
        match decodeInstrList n w3 with
        | some (is, []) =>
          some { instructions := is, feePayer := fp,
                 recentBlockhash := bh }
        | _ => none
      | _ => none

theorem decodeRat_encodeRat (q : ℚ) (rest : List WireTok) :
    decodeRat (encodeRat q ++ rest) = some (q, rest) := by
  simp [encodeRat, decodeRat, Rat.num_div_den]

theorem decodeInstr_encodeInstr (i : Instruction) (rest : List WireTok) :
    decodeInstr (encodeInstr i ++ rest) = some (i, rest) := by
  cases i <;> simp [encodeInstr, decodeInstr, decodeRat_encodeRat]

theorem decodeInstrList_encode (is : List Instruction)
    (rest : List WireTok) :
    decodeInstrList is.length (is.flatMap encodeInstr ++ rest) =
      some (is, rest) := by
  induction is generalizing rest with
  | nil => simp [decodeInstrList]
  | cons i tl ih =>
    simp [List.flatMap_cons, List.append_assoc, decodeInstrList,
      decodeInstr_encodeInstr, ih]

theorem decodeOptStr_encodeOptStr (o : Option String)
    (rest : List WireTok) :
    decodeOptStr (encodeOptStr o ++ rest) = some (o, rest) := by
  cases o <;> simp [encodeOptStr, decodeOptStr]

/-- The codec round-trips on every transaction value. -/
theorem txDecode_txEncode (tx : UnsignedTransaction) :
    txDecode (txEncode tx) = some tx := by
  have h := decodeInstrList_encode tx.instructions []
  rw [List.append_nil] at h
  simp [txEncode, txDecode, List.append_assoc, decodeOptStr_encodeOptStr, h]

/-- C9: for every `UnsignedTransaction` the builder returns with a 200,
decoding its transport encoding reproduces the identical instruction
sequence, fee-payer, and anchor. -/
theorem builder_tx_roundtrip (env : Env) (req : SendRequest)
    (tx : UnsignedTransaction)
    (hok : (handleSend env req).1 = SendOutcome.ok tx) :
    txDecode (txEncode tx) = some tx :=
  txDecode_txEncode tx

/-- Witness for C9 at the concrete token build of `txTokenScenario`. -/
theorem builder_tx_roundtrip_witness :
    txDecode (txEncode txTokenScenario) = some txTokenScenario :=
  builder_tx_roundtrip envSenderHas ⟨some "S", "T", some [⟨"A", 5⟩]⟩
    txTokenScenario
    (by simp [handleSend, processRecipients, tokenBlockIns, tokenBlockEvs,
      envSenderHas, envAllMissing, txTokenScenario]; norm_num)

/-! ### C10 -/

/-- C10: on `/submit`, a missing `signedTransaction` field is rejected
with 400 before any decoding or collaborator interaction (empty trace);
if decoding fails, the response is an error and no broadcast happens
(the trace is exactly the decode attempt); and whenever a broadcast
occurs, the blob was previously decoded successfully. -/
theorem submit_decode_gates_broadcast (env : Env) (req : SubmitRequest) :
    (req.signedTransaction = none →
      handleSubmit env req =
        (SubmitOutcome.badRequest "Missing signedTransaction", [])) ∧
    (∀ blob, req.signedTransaction = some blob →
      env.decodeTx blob = none →
      handleSubmit env req =
        (SubmitOutcome.serverError "Failed to submit transaction.",
         [NetEvent.decodeAttempt])) ∧
    (NetEvent.sendRawTransaction ∈ (handleSubmit env req).2 →
      ∃ blob tx, req.signedTransaction = some blob ∧
        env.decodeTx blob = some tx) := by
  cases hst : req.signedTransaction with
  | none =>
    refine ⟨fun _ => by simp [handleSubmit, hst], ?_, ?_⟩
    · intro blob hblob hdec
      simp [hst] at hblob
    · intro hmem
      simp [handleSubmit, hst] at hmem
  | some blob =>
    refine ⟨?_, ?_, ?_⟩
    · intro h
      simp [hst] at h
    · intro b hb hdec
      have hbb : blob = b := by simpa [hst] using hb
      subst hbb
      simp [handleSubmit, hst, hdec]
    · intro hmem
      cases hdec : env.decodeTx blob with
      | none => simp [handleSubmit, hst, hdec] at hmem
      | some tx => exact ⟨blob, tx, by simp [hst], hdec⟩

/-- Witness for C10: missing field, and a blob the decoder rejects. -/
theorem submit_decode_gates_broadcast_witness :
    handleSubmit envAllMissing ⟨none⟩ =
      (SubmitOutcome.badRequest "Missing signedTransaction", []) ∧
    handleSubmit envAllMissing ⟨some "AAAA"⟩ =
      (SubmitOutcome.serverError "Failed to submit transaction.",
       [NetEvent.decodeAttempt]) :=
  ⟨(submit_decode_gates_broadcast envAllMissing ⟨none⟩).1 rfl,
   (submit_decode_gates_broadcast envAllMissing ⟨some "AAAA"⟩).2.1
     "AAAA" rfl rfl⟩
